import Mathlib

/-!
Verification development for the jenkins-flow workflow engine.

This file shallowly embeds the parts of the Go sources that the verified
properties are about:

* `pkg/github/client.go`   — PR gate client (`FindPRByBranch`,
  `WaitForPRStatus`, `checkPRState`);
* `pkg/config/config.go` (current revision, with `head_branch` support) —
  pipeline model and validation (`validatePRWait`, `validate`);
* `pkg/server/state.go`    — `StateManager` and its mutators;
* `pkg/server/server.go`   — `runWorkflow` completion logic;
* `pkg/workflow/engine.go` — `Run`, `RunWithCallbacks`, `runStep`,
  `runParallelGroup(WithCallbacks)` and `pkg/jenkins/client.go`'s
  `WaitForBuild` polling loop.

Network I/O is abstracted by explicit oracles (the list of poll responses a
loop would observe, or per-phase outcome functions), concurrency by an
explicit completion order, and wall-clock time by discrete tick counters.
Everything else is translated statement-by-statement from the Go code.
-/

namespace JenkinsFlow

/-! ## PR gate client (`pkg/github/client.go`) -/

/-- `PRStatus` from `pkg/github/client.go`: the decoded GitHub API view of a
pull request.  `headRef` is the nested `Head.Ref` field. -/
structure PRStatus where
  number : Int
  state : String
  merged : Bool
  title : String
  htmlURL : String
  headRef : String
  deriving DecidableEq, Repr, Inhabited

/-- Go's `strings.EqualFold` on the branch names, modelled as equality of the
character-wise lower-cased strings (the source only relies on
case-insensitive equality). -/
def eqFold (a b : String) : Bool :=
  a.data.map Char.toLower == b.data.map Char.toLower

/-- `FindPRByBranch` from `pkg/github/client.go` (lines 91-139).  The HTTP
layer is abstracted away: `pulls` is the decoded list of open pull requests
the GitHub API returned.  The function filters by case-insensitive
head-branch equality and errors on zero or multiple matches. -/
def findPRByBranch (pulls : List PRStatus) (branch : String) : Except String PRStatus :=
  if branch = "" then
    .error "branch name must be provided"
  else
    match pulls.filter (fun p => eqFold p.headRef branch) with
    | [] => .error ("no open PR found for branch " ++ branch)
    | [p] => .ok p
    | _ :: _ :: _ => .error ("multiple open PRs found for branch " ++ branch)

/-- Result triple of `checkPRState` (minus the returned `*PRStatus`, which is
always the fetched status itself): whether the target state is reached, and
the terminal error if there is one. -/
structure PRCheck where
  done : Bool
  err : Option String
  deriving DecidableEq, Repr

/-- `checkPRState` from `pkg/github/client.go` (lines 176-202), applied to an
already-fetched `PRStatus`.  For target `"merged"`: done when `Merged`,
terminal failure when the PR is closed without being merged, keep polling
otherwise.  For target `"closed"`: done exactly when `State == "closed"`.
Any other target state is an error. -/
def checkPRState (pr : PRStatus) (targetState : String) : PRCheck :=
  if targetState = "merged" then
    if pr.merged then ⟨true, none⟩
    else if pr.state = "closed" && !pr.merged then
      ⟨false, some "PR was closed without being merged"⟩
    else ⟨false, none⟩
  else if targetState = "closed" then
    if pr.state = "closed" then ⟨true, none⟩ else ⟨false, none⟩
  else ⟨false, some ("unsupported target state: " ++ targetState)⟩

/-- Is the context cancelled at tick `t`?  `cancelAt = some n` means the
caller cancels the root context between tick `n - 1` and tick `n`. -/
def cancelledAt (cancelAt : Option Nat) (t : Nat) : Bool :=
  match cancelAt with
  | none => false
  | some n => n ≤ t

/-- `WaitForPRStatus` from `pkg/github/client.go` (lines 143-173).  `fetches`
is the sequence of `GetPRStatus` results the loop would observe, one per
check; index `0` is the immediate pre-loop check, index `t ≥ 1` is the check
on tick `t`.  The `select` of the polling loop re-checks context cancellation
on every iteration, hence the `cancelledAt` test guards every tick (but not
the immediate check, which the source performs before entering the loop).
Returns `.ok (some pr)` when the target state is reached, `.error e` on a
terminal failure, and `.ok none` when the trace is exhausted with the loop
still polling. -/
def waitForPRStatus (targetState : String) (cancelAt : Option Nat) :
    Nat → List (Except String PRStatus) → Except String (Option PRStatus)
  | _, [] => .ok none
  | t, fetch :: rest =>
    if 1 ≤ t && cancelledAt cancelAt t then
      .error "context canceled"
    else
      match fetch with
      | .error e => .error e
      | .ok pr =>
        let check := checkPRState pr targetState
        match check.err with
        | some e => .error e
        | none =>
          if check.done then .ok (some pr)
          else waitForPRStatus targetState cancelAt (t + 1) rest

/-! ## Jenkins client polling loop (`pkg/jenkins/client.go`) -/

/-- One observation of `WaitForBuild`'s polling loop, i.e. what one iteration
of the loop body would see: a transport error from `HTTPClient.Do`, a
non-200 HTTP status, a JSON decoding failure, or a decoded body with the
`building` flag and `result` string. -/
inductive BuildPoll where
  | doError (msg : String)
  | badStatus (code : Nat) (body : String)
  | badJSON (msg : String)
  | body (building : Bool) (result : String)
  deriving DecidableEq, Repr

/-- `WaitForBuild` from `pkg/jenkins/client.go` (lines 159-206).  `polls` is
the sequence of per-tick observations; tick `t` consumes `polls[t]`.  The
loop's `select` checks `ctx.Done()` on every iteration, modelled by the
`cancelledAt` guard before each poll is consumed.  Returns `some (.ok r)`
when the build finished with result `r`, `some (.error e)` on an error or
cancellation, and `none` when the trace is exhausted with the build still
running. -/
def waitForBuild (cancelAt : Option Nat) :
    Nat → List BuildPoll → Option (Except String String)
  | _, [] => none
  | t, p :: rest =>
    if cancelledAt cancelAt t then
      some (.error "context canceled")
    else
      match p with
      | .doError m => some (.error ("poll build request failed: " ++ m))
      | .badStatus c b =>
        some (.error ("poll build status " ++ toString c ++ ": " ++ b))
      | .badJSON m => some (.error ("failed to decode build json: " ++ m))
      | .body building result =>
        if !building then some (.ok result)
        else waitForBuild cancelAt (t + 1) rest

/-! ## Pipeline model and validation (`pkg/config/config.go`, current
revision with `head_branch` support) -/

/-- `Instance` from `pkg/config/config.go`: one Jenkins instance entry. -/
structure Instance where
  url : String
  authEnv : String
  token : String
  deriving DecidableEq, Repr, Inhabited

/-- `Step` from `pkg/config/config.go`: one job trigger. -/
structure Step where
  name : String
  inst : String
  job : String
  params : List (String × String)
  deriving DecidableEq, Repr, Inhabited

/-- `PRWait` from `pkg/config/config.go`: a wait condition for a GitHub PR.
`prNumber` is a Go `int`; the source treats values `≤ 0` as "not set". -/
structure PRWait where
  name : String
  owner : String
  repo : String
  prNumber : Int
  waitFor : String
  pollSecs : Int
  headBranch : String
  resolvedURL : String
  resolvedTitle : String
  deriving DecidableEq, Repr, Inhabited

/-- `ParallelGroup` from `pkg/config/config.go`. -/
structure ParallelGroup where
  name : String
  steps : List Step
  deriving DecidableEq, Repr, Inhabited

/-- `WorkflowItem` from `pkg/config/config.go`: inline step fields plus the
optional `Parallel` and `WaitForPR` pointers.  `IsParallel`/`IsPRWait` test
the pointers for `nil`, so an item's kind is decided by which options are
populated, PR wait taking precedence in the engine's dispatch. -/
structure WorkflowItem where
  name : String
  inst : String
  job : String
  params : List (String × String)
  parallel : Option ParallelGroup
  waitForPR : Option PRWait
  deriving DecidableEq, Repr, Inhabited

/-- `WorkflowItem.IsParallel`. -/
def WorkflowItem.isParallel (w : WorkflowItem) : Bool :=
  w.parallel.isSome

/-- `WorkflowItem.IsPRWait`. -/
def WorkflowItem.isPRWait (w : WorkflowItem) : Bool :=
  w.waitForPR.isSome

/-- `WorkflowItem.AsStep`. -/
def WorkflowItem.asStep (w : WorkflowItem) : Step :=
  ⟨w.name, w.inst, w.job, w.params⟩

/-- `Config` from `pkg/config/config.go`.  The `Instances` map is modelled
as an association list. -/
structure Config where
  name : String
  instances : List (String × Instance)
  workflow : List WorkflowItem
  deriving Repr, Inhabited

/-- Lookup in the `Instances` map. -/
def Config.lookupInstance (c : Config) (n : String) : Option Instance :=
  (c.instances.find? (fun p => p.1 = n)).map Prod.snd

/-- Go's `%q` formatting of a name inside an error message. -/
def quoteName (s : String) : String :=
  "\"" ++ s ++ "\""

/-- `Config.validateStep` from `pkg/config/config.go`: a step needs a name,
a known instance and a job path. -/
def validateStep (c : Config) (step : Step) (location : String) : Except String Unit :=
  if step.name = "" then
    .error (location ++ ": missing name")
  else if step.inst = "" then
    .error (location ++ " (" ++ quoteName step.name ++ "): missing instance")
  else if (c.lookupInstance step.inst).isNone then
    .error (location ++ " (" ++ quoteName step.name ++ "): unknown instance " ++ quoteName step.inst)
  else if step.job = "" then
    .error (location ++ " (" ++ quoteName step.name ++ "): missing job path")
  else
    .ok ()

/-- `Config.validatePRWait` from the current `pkg/config/config.go`
revision: requires name, owner and repo; exactly one of `pr_number` and
`head_branch`; and `wait_for ∈ {"merged", "closed"}`. -/
def validatePRWait (pr : PRWait) (location : String) : Except String Unit :=
  if pr.name = "" then
    .error (location ++ ": missing name")
  else if pr.owner = "" then
    .error (location ++ " (" ++ quoteName pr.name ++ "): missing owner")
  else if pr.repo = "" then
    .error (location ++ " (" ++ quoteName pr.name ++ "): missing repo")
  else if pr.prNumber ≤ 0 && pr.headBranch = "" then
    .error (location ++ " (" ++ quoteName pr.name ++ "): either pr_number or head_branch must be provided")
  else if pr.prNumber > 0 && pr.headBranch ≠ "" then
    .error (location ++ " (" ++ quoteName pr.name ++ "): pr_number and head_branch are mutually exclusive")
  else if pr.waitFor = "" then
    .error (location ++ " (" ++ quoteName pr.name ++ "): missing wait_for")
  else if pr.waitFor ≠ "merged" && pr.waitFor ≠ "closed" then
    .error (location ++ " (" ++ quoteName pr.name ++ "): wait_for must be merged or closed, got " ++ quoteName pr.waitFor)
  else
    .ok ()

/-- The inner loop of `Config.validate` over the steps of a parallel group,
carrying the step index `j` for the error location. -/
def validateGroupSteps (c : Config) (i : Nat) : Nat → List Step → Except String Unit
  | _, [] => .ok ()
  | j, s :: rest =>
    match validateStep c s ("parallel[" ++ toString i ++ "].step[" ++ toString j ++ "]") with
    | .error e => .error e
    | .ok () => validateGroupSteps c i (j + 1) rest

/-- The per-item body of `Config.validate`'s workflow loop: PR waits are
validated by `validatePRWait`, parallel groups must be non-empty with every
member step valid, anything else is validated as a single step. -/
def validateItem (c : Config) (i : Nat) (item : WorkflowItem) : Except String Unit :=
  if item.isPRWait then
    match item.waitForPR with
    | some pr => validatePRWait pr ("wait_for_pr[" ++ toString i ++ "]")
    | none => .ok ()
  else if item.isParallel then
    match item.parallel with
    | some grp =>
      if grp.steps.length = 0 then
        .error ("workflow item " ++ toString i ++ ": parallel group is empty")
      else
        validateGroupSteps c i 0 grp.steps
    | none => .ok ()
  else
    validateStep c (item.asStep) ("step " ++ toString i)

/-- The workflow loop of `Config.validate`, carrying the item index `i`:
items are validated in order and the first error aborts validation. -/
def validateItems (c : Config) : Nat → List WorkflowItem → Except String Unit
  | _, [] => .ok ()
  | i, item :: rest =>
    match validateItem c i item with
    | .error e => .error e
    | .ok () => validateItems c (i + 1) rest

/-- `Config.validate` from `pkg/config/config.go`: instances must be present
and well-formed, the workflow must be non-empty, and every workflow item
must validate (the per-instance error messages are collapsed into a single
generic message here).  `Load` calls this before returning a `Config`, so a
rejected config never reaches the engine: validation happens before any
execution begins. -/
def Config.validate (c : Config) : Except String Unit :=
  if c.instances.length = 0 then
    .error "no instances defined"
  else if c.workflow.length = 0 then
    .error "workflow is empty"
  else if c.instances.any (fun p => p.2.url = "" || (p.2.authEnv = "" && p.2.token = "")) then
    .error "instance misconfigured"
  else
    validateItems c 0 c.workflow

/-! ## Server-side workflow state (`pkg/server/state.go`)

Go's `StepStatus` is a string type with five constants; it is kept as
`String` here.  `*time.Time` timestamps are modelled as `Option Nat`, with
the current time `now` passed explicitly where the source calls
`time.Now()`.  The mutators are translated to pure state-transformers; the
mutex around them serialises calls and plays no role in their functional
behaviour. -/

def statusPending : String := "pending"
def statusRunning : String := "running"
def statusSuccess : String := "success"
def statusFailed : String := "failed"
def statusSkipped : String := "skipped"

/-- `StepState` from `pkg/server/state.go`. -/
structure StepState where
  name : String
  inst : String
  job : String
  status : String
  result : String
  error : String
  startedAt : Option Nat
  endedAt : Option Nat
  buildURL : String
  deriving DecidableEq, Repr, Inhabited

/-- `PRWaitState` from `pkg/server/state.go`. -/
structure PRWaitState where
  name : String
  owner : String
  repo : String
  headBranch : String
  prNumber : Int
  waitFor : String
  status : String
  error : String
  startedAt : Option Nat
  endedAt : Option Nat
  htmlURL : String
  title : String
  deriving DecidableEq, Repr, Inhabited

/-- `ParallelGroupState` from `pkg/server/state.go`. -/
structure ParallelGroupState where
  name : String
  steps : List StepState
  status : String
  deriving DecidableEq, Repr, Inhabited

/-- `WorkflowItemState` from `pkg/server/state.go`: the kind flags plus the
three optional payload pointers. -/
structure WorkflowItemState where
  isParallel : Bool
  isPRWait : Bool
  step : Option StepState
  parallel : Option ParallelGroupState
  prWait : Option PRWaitState
  deriving DecidableEq, Repr, Inhabited

/-- `WorkflowState` from `pkg/server/state.go`. -/
structure WorkflowState where
  name : String
  status : String
  items : List WorkflowItemState
  startedAt : Option Nat
  endedAt : Option Nat
  error : String
  deriving DecidableEq, Repr, Inhabited

/-- `StateManager` from `pkg/server/state.go` (the mutex is dropped; the
value of `current` is carried directly). -/
structure StateManager where
  current : Option WorkflowState
  running : Bool
  deriving DecidableEq, Repr, Inhabited

/-- The three accumulator booleans of `updateParallelGroupStatus`. -/
structure AggFlags where
  allSuccess : Bool
  anyRunning : Bool
  anyFailed : Bool
  deriving DecidableEq, Repr

/-- One iteration of `updateParallelGroupStatus`'s loop: the Go `switch`
only handles the `running`, `failed` and `pending` statuses; every other
status (`success`, `skipped`, or anything else) leaves the flags untouched. -/
def aggStep (f : AggFlags) (s : StepState) : AggFlags :=
  if s.status = statusRunning then { f with anyRunning := true, allSuccess := false }
  else if s.status = statusFailed then { f with anyFailed := true, allSuccess := false }
  else if s.status = statusPending then { f with allSuccess := false }
  else f

/-- `updateParallelGroupStatus` from `pkg/server/state.go` (lines 272-299):
aggregates the member step statuses into the group status. -/
def updateParallelGroupStatus (pg : ParallelGroupState) : ParallelGroupState :=
  let f := pg.steps.foldl aggStep ⟨true, false, false⟩
  { pg with status :=
      if f.anyFailed then statusFailed
      else if f.anyRunning then statusRunning
      else if f.allSuccess then statusSuccess
      else statusPending }

/-- The mutation `UpdateStepStatus` performs on the selected step: status,
result, error and build URL are overwritten; `startedAt` is stamped on the
first transition to `running`; `endedAt` is stamped on any terminal status. -/
def applyStepUpdate (now : Nat) (status result errMsg buildURL : String)
    (step : StepState) : StepState :=
  let s1 := { step with status := status, result := result, error := errMsg, buildURL := buildURL }
  let s2 :=
    if status = statusRunning && s1.startedAt.isNone then { s1 with startedAt := some now }
    else s1
  if status = statusSuccess || status = statusFailed || status = statusSkipped then
    { s2 with endedAt := some now }
  else s2

/-- `StateManager.UpdateStepStatus` from `pkg/server/state.go` (lines
121-160).  Returns the manager unchanged when there is no current workflow,
the item index is out of range, the step index is out of range inside a
parallel group, or the addressed item carries no step payload. -/
def StateManager.updateStepStatus (sm : StateManager) (itemIndex stepIndex : Nat)
    (status result errMsg buildURL : String) (now : Nat) : StateManager :=
  match sm.current with
  | none => sm
  | some st =>
    if st.items.length ≤ itemIndex then sm
    else
      let item := st.items.getD itemIndex default
      if item.isParallel && item.parallel.isSome then
        match item.parallel with
        | none => sm
        | some pg =>
          if pg.steps.length ≤ stepIndex then sm
          else
            let updated := applyStepUpdate now status result errMsg buildURL
              (pg.steps.getD stepIndex default)
            let pg' := updateParallelGroupStatus
              ({ pg with steps := pg.steps.set stepIndex updated })
            let items2 := st.items.set itemIndex ({ item with parallel := some pg' })
            { sm with current := some ({ st with items := items2 }) }
      else
        match item.step with
        | none => sm
        | some stp =>
          let updated := applyStepUpdate now status result errMsg buildURL stp
          let items2 := st.items.set itemIndex ({ item with step := some updated })
          { sm with current := some ({ st with items := items2 }) }

/-- `StateManager.StartPRWait` from `pkg/server/state.go` (lines 163-192). -/
def StateManager.startPRWait (sm : StateManager) (itemIndex : Nat)
    (name owner repo headBranch waitFor : String) (prNumber : Int)
    (htmlURL title : String) (now : Nat) : StateManager :=
  match sm.current with
  | none => sm
  | some st =>
    if st.items.length ≤ itemIndex then sm
    else
      let item := st.items.getD itemIndex default
      if !item.isPRWait || item.prWait.isNone then sm
      else
        match item.prWait with
        | none => sm
        | some pr =>
          let pr' := { pr with
            name := name, owner := owner, repo := repo, headBranch := headBranch,
            waitFor := waitFor, status := statusRunning, error := "",
            htmlURL := htmlURL, title := title, prNumber := prNumber,
            startedAt := if pr.startedAt.isNone then some now else pr.startedAt,
            endedAt := none }
          let items2 := st.items.set itemIndex ({ item with prWait := some pr' })
          { sm with current := some ({ st with items := items2 }) }

/-- `StateManager.UpdatePRWaitMetadata` from `pkg/server/state.go` (lines
195-221): refreshes PR metadata without touching completion state, and
promotes a still-`pending` wait to `running`. -/
def StateManager.updatePRWaitMetadata (sm : StateManager) (itemIndex : Nat)
    (prNumber : Int) (htmlURL title : String) : StateManager :=
  match sm.current with
  | none => sm
  | some st =>
    if st.items.length ≤ itemIndex then sm
    else
      let item := st.items.getD itemIndex default
      if !item.isPRWait || item.prWait.isNone then sm
      else
        match item.prWait with
        | none => sm
        | some pr =>
          let p1 := if prNumber > 0 then { pr with prNumber := prNumber } else pr
          let p2 := if htmlURL ≠ "" then { p1 with htmlURL := htmlURL } else p1
          let p3 := if title ≠ "" then { p2 with title := title } else p2
          let p4 := if p3.status = statusPending then { p3 with status := statusRunning } else p3
          let items2 := st.items.set itemIndex ({ item with prWait := some p4 })
          { sm with current := some ({ st with items := items2 }) }

/-- `StateManager.CompletePRWait` from `pkg/server/state.go` (lines
224-245). -/
def StateManager.completePRWait (sm : StateManager) (itemIndex : Nat) (now : Nat) : StateManager :=
  match sm.current with
  | none => sm
  | some st =>
    if st.items.length ≤ itemIndex then sm
    else
      let item := st.items.getD itemIndex default
      if !item.isPRWait || item.prWait.isNone then sm
      else
        match item.prWait with
        | none => sm
        | some pr =>
          let pr' := { pr with
            status := statusSuccess, error := "",
            startedAt := if pr.startedAt.isNone then some now else pr.startedAt,
            endedAt := some now }
          let items2 := st.items.set itemIndex ({ item with prWait := some pr' })
          { sm with current := some ({ st with items := items2 }) }

/-- `StateManager.FailPRWait` from `pkg/server/state.go` (lines 248-269). -/
def StateManager.failPRWait (sm : StateManager) (itemIndex : Nat) (errMsg : String)
    (now : Nat) : StateManager :=
  match sm.current with
  | none => sm
  | some st =>
    if st.items.length ≤ itemIndex then sm
    else
      let item := st.items.getD itemIndex default
      if !item.isPRWait || item.prWait.isNone then sm
      else
        match item.prWait with
        | none => sm
        | some pr =>
          let pr' := { pr with
            status := statusFailed, error := errMsg,
            startedAt := if pr.startedAt.isNone then some now else pr.startedAt,
            endedAt := some now }
          let items2 := st.items.set itemIndex ({ item with prWait := some pr' })
          { sm with current := some ({ st with items := items2 }) }

/-- `StateManager.CompleteWorkflow` from `pkg/server/state.go` (lines
302-320): stamps the end time, clears `running`, and records either
`success`, or `failed` together with the error message. -/
def StateManager.completeWorkflow (sm : StateManager) (success : Bool) (errMsg : String)
    (now : Nat) : StateManager :=
  match sm.current with
  | none => sm
  | some st =>
    let st' := { st with endedAt := some now }
    if success then
      { current := some { st' with status := statusSuccess }, running := false }
    else
      { current := some { st' with status := statusFailed, error := errMsg }, running := false }

/-! ## Pointer-level view of `GetState` (`pkg/server/state.go`)

In Go, `WorkflowState.Items` is a slice: the struct holds a slice header
pointing at a shared backing array.  `GetState` copies the struct
(`state := *sm.current`), which copies the header but not the array.  To
make that observable, this section models the backing array as a heap cell
addressed by `itemsAddr`; a struct copy carries the address along. -/

/-- `WorkflowState` with the `Items` slice represented by the address of its
backing array. -/
structure WorkflowStateRef where
  name : String
  status : String
  itemsAddr : Nat
  startedAt : Option Nat
  endedAt : Option Nat
  error : String
  deriving DecidableEq, Repr

/-- `StateManager` together with the heap of item arrays. -/
structure StateManagerH where
  current : Option WorkflowStateRef
  running : Bool
  heap : Nat → List WorkflowItemState

/-- `StateManager.GetState` from `pkg/server/state.go` (lines 94-103):
`state := *sm.current; return &state` — a struct copy, so the returned
snapshot holds the same `itemsAddr` as the live state. -/
def StateManagerH.getState (sm : StateManagerH) : Option WorkflowStateRef :=
  match sm.current with
  | none => none
  | some st => some st

/-- What a holder of a `*WorkflowState` sees when reading its `Items`. -/
def StateManagerH.readItems (sm : StateManagerH) (st : WorkflowStateRef) :
    List WorkflowItemState :=
  sm.heap st.itemsAddr

/-- The items-array update `UpdateStepStatus` performs, shared between the
value-level and heap-level models; `none` when one of the guards makes the
call a no-op. -/
def updateStepInItems (itemIndex stepIndex : Nat)
    (status result errMsg buildURL : String) (now : Nat)
    (items : List WorkflowItemState) : Option (List WorkflowItemState) :=
  if items.length ≤ itemIndex then none
  else
    let item := items.getD itemIndex default
    if item.isParallel && item.parallel.isSome then
      match item.parallel with
      | none => none
      | some pg =>
        if pg.steps.length ≤ stepIndex then none
        else
          let updated := applyStepUpdate now status result errMsg buildURL
            (pg.steps.getD stepIndex default)
          let pg' := updateParallelGroupStatus
            ({ pg with steps := pg.steps.set stepIndex updated })
          some (items.set itemIndex ({ item with parallel := some pg' }))
    else
      match item.step with
      | none => none
      | some stp =>
        let updated := applyStepUpdate now status result errMsg buildURL stp
        some (items.set itemIndex ({ item with step := some updated }))

/-- `StateManager.UpdateStepStatus` on the heap-level model: the mutation
happens in place, through the live state's `itemsAddr`. -/
def StateManagerH.updateStepStatus (sm : StateManagerH) (itemIndex stepIndex : Nat)
    (status result errMsg buildURL : String) (now : Nat) : StateManagerH :=
  match sm.current with
  | none => sm
  | some st =>
    match updateStepInItems itemIndex stepIndex status result errMsg buildURL now
        (sm.heap st.itemsAddr) with
    | none => sm
    | some items2 =>
      { sm with heap := fun a => if a = st.itemsAddr then items2 else sm.heap a }

/-! ## Run completion (`pkg/server/server.go` and its database-enabled
revision) -/

/-- The `finalStatus` computation of the database-enabled `runWorkflow`
(`src/unnamed/part_010`, lines 602-633): the history record gets
`"stopped"` when the run ended with an error and the root context was
cancelled, `"failed"` for an organic error, `"success"` otherwise. -/
def runWorkflowFinalStatus (runErr : Option String) (ctxCanceled : Bool) : String :=
  match runErr with
  | none => "success"
  | some _ => if ctxCanceled then "stopped" else "failed"

/-- The in-memory completion performed by both revisions of `runWorkflow`:
`CompleteWorkflow(false, err.Error())` on any error — cancellation included —
and `CompleteWorkflow(true, "")` on success. -/
def runWorkflowComplete (sm : StateManager) (runErr : Option String) (now : Nat) :
    StateManager :=
  match runErr with
  | some e => sm.completeWorkflow false e now
  | none => sm.completeWorkflow true "" now

/-! ## Execution engine (`pkg/workflow/engine.go`)

The engine is embedded as an interpreter over the workflow item list.  The
remote side of each phase of a step (`GetToken`, `TriggerJob`,
`WaitForQueue`, `WaitForBuild`) and of a PR wait is an oracle in
`EngineEnv`, keyed the way the source keys its calls; the completion order
of the goroutines of a parallel group is the oracle `order` (errgroup
imposes no ordering between siblings, so theorems quantify over it). -/

/-- The callbacks of the `WorkflowCallbacks` interface, reified as events in
emission order. -/
inductive Event where
  | stepStart (itemIndex stepIndex : Nat) (name buildURL : String)
  | stepComplete (itemIndex stepIndex : Nat) (name result : String) (err : Option String)
  | prWaitStart (itemIndex : Nat)
  | prWaitProgress (itemIndex : Nat)
  | prWaitComplete (itemIndex : Nat)
  | prWaitFailed (itemIndex : Nat) (err : String)
  deriving DecidableEq, Repr

/-- The item index an event reports. -/
def Event.item : Event → Nat
  | .stepStart i _ _ _ => i
  | .stepComplete i _ _ _ _ => i
  | .prWaitStart i => i
  | .prWaitProgress i => i
  | .prWaitComplete i => i
  | .prWaitFailed i _ => i

/-- Oracles for everything outside the engine: remote outcomes per pipeline
position, the PR-wait outcome and its progress-callback count per item, and
the completion order of parallel-group tasks per item. -/
structure EngineEnv where
  token : String → Except String String
  trigger : Nat → Nat → Except String String
  waitQueue : Nat → Nat → Except String String
  waitBuild : Nat → Nat → Except String String
  prOutcome : Nat → Except String Unit
  prProgress : Nat → Nat
  order : Nat → List Nat

/-- The `result` value Go's `runStep` hands to `OnStepComplete`: the empty
string when `runStep` returned an error. -/
def resultOf : Except String String → String
  | .error _ => ""
  | .ok r => r

/-- The `err` value handed to `OnStepComplete`. -/
def errOf : Except String String → Option String
  | .error e => some e
  | .ok _ => none

/-- `runStep` from `pkg/workflow/engine.go` (lines 198-239): instance
lookup, token, trigger, queue wait, then build wait; with a non-nil
callback, `OnStepStart` fires once the queue resolves to a non-empty build
URL.  Each failing phase wraps its error exactly as the source does. -/
def runStepModel (cfg : Config) (env : EngineEnv) (step : Step)
    (withCallbacks : Bool) (itemIndex stepIndex : Nat) :
    List Event × Except String String :=
  match cfg.lookupInstance step.inst with
  | none => ([], .error ("unknown instance " ++ quoteName step.inst))
  | some _ =>
    match env.token step.inst with
    | .error e => ([], .error ("auth error: " ++ e))
    | .ok _ =>
      match env.trigger itemIndex stepIndex with
      | .error e => ([], .error ("failed to trigger: " ++ e))
      | .ok _ =>
        match env.waitQueue itemIndex stepIndex with
        | .error e => ([], .error ("failed waiting for queue: " ++ e))
        | .ok buildURL =>
          let evs := if withCallbacks && buildURL ≠ "" then
              [Event.stepStart itemIndex stepIndex step.name buildURL] else []
          match env.waitBuild itemIndex stepIndex with
          | .error e => (evs, .error ("failed waiting for build: " ++ e))
          | .ok result => (evs, .ok result)

/-- The tail of the closure passed to `g.Go` in both parallel runners
(lines 355-363 and 399-407): a step error is wrapped with the step's name,
a non-`"SUCCESS"` result becomes an error, anything else is success. -/
def stepTaskVerdict (name : String) (outcome : Except String String) :
    Except String Unit :=
  match outcome with
  | .error e => .error ("step " ++ quoteName name ++ ": " ++ e)
  | .ok result =>
    if result ≠ "SUCCESS" then
      .error ("step " ++ quoteName name ++ " failed with result: " ++ result)
    else .ok ()

/-- `golang.org/x/sync/errgroup` semantics of `Group.Wait`: the first
non-nil error returned by a task — in completion order — is kept, later
errors are dropped. -/
def errgroupFirst : List (Except String Unit) → Except String Unit
  | [] => .ok ()
  | .ok () :: rest => errgroupFirst rest
  | .error e :: _ => .error e

/-- The completion-order position at which errgroup first sees an error —
the moment it cancels the context shared by all sibling tasks (`none` when
every task succeeds, in which case the context is only cancelled when
`Wait` returns). -/
def firstErrPos : List (Except String Unit) → Option Nat
  | [] => none
  | .ok () :: rest => (firstErrPos rest).map (· + 1)
  | .error _ :: _ => some 0

/-- One task of `runParallelGroupWithCallbacks` (lines 380-408):
`OnStepStart` with an empty build URL, the step itself, `OnStepComplete`,
then the verdict. -/
def parallelTask (cfg : Config) (env : EngineEnv) (itemIndex : Nat)
    (steps : List Step) (j : Nat) : List Event × Except String Unit :=
  let step := steps.getD j default
  let r := runStepModel cfg env step true itemIndex j
  (Event.stepStart itemIndex j step.name "" :: r.1 ++
     [Event.stepComplete itemIndex j step.name (resultOf r.2) (errOf r.2)],
   stepTaskVerdict step.name r.2)

/-- `runParallelGroupWithCallbacks` from `pkg/workflow/engine.go` (lines
372-413), serialised along the completion order `env.order itemIndex`. -/
def runParallelGroupWithCallbacksModel (cfg : Config) (env : EngineEnv)
    (itemIndex : Nat) (steps : List Step) : List Event × Except String Unit :=
  let tasks := (env.order itemIndex).map (parallelTask cfg env itemIndex steps)
  ((tasks.map Prod.fst).flatten, errgroupFirst (tasks.map Prod.snd))

/-- `runParallelGroup` from `pkg/workflow/engine.go` (lines 336-369); note
the source passes item index `0` to `runStep` here, so the oracles are
keyed accordingly. -/
def runParallelGroupModel (cfg : Config) (env : EngineEnv) (itemIndex : Nat)
    (steps : List Step) : Except String Unit :=
  errgroupFirst ((env.order itemIndex).map (fun j =>
    stepTaskVerdict (steps.getD j default).name
      (runStepModel cfg env (steps.getD j default) false 0 j).2))

/-- `runPRWait` from `pkg/workflow/engine.go` (lines 242-307), with the
GitHub interactions (token, branch resolution, metadata fetch,
`WaitForPRStatus`) abstracted into `env.prOutcome`; `OnPRWaitStart` fires
first, then `env.prProgress` many `OnPRWaitProgress` emissions from the
resolution and metadata phases, then the outcome. -/
def runPRWaitModel (env : EngineEnv) (withCallbacks : Bool) (itemIndex : Nat) :
    List Event × Except String Unit :=
  ((if withCallbacks then
      Event.prWaitStart itemIndex ::
        List.replicate (env.prProgress itemIndex) (Event.prWaitProgress itemIndex)
    else []),
   env.prOutcome itemIndex)

/-- The loop body of `RunWithCallbacks` (lines 110-190) for the item at
index `i`: PR waits take precedence, then parallel groups, then single
steps; each failure is wrapped with the item's name and aborts the run. -/
def runItemWC (cfg : Config) (env : EngineEnv) (skipPRCheck : Bool) (i : Nat)
    (item : WorkflowItem) : List Event × Except String Unit :=
  match item.waitForPR with
  | some pr =>
    if skipPRCheck then
      ([Event.prWaitStart i, Event.prWaitComplete i], .ok ())
    else
      let r := runPRWaitModel env true i
      match r.2 with
      | .error e =>
        (r.1 ++ [Event.prWaitFailed i e],
         .error ("PR wait " ++ quoteName pr.name ++ " failed: " ++ e))
      | .ok () => (r.1 ++ [Event.prWaitComplete i], .ok ())
  | none =>
    match item.parallel with
    | some grp =>
      let groupName := if grp.name = "" then "Parallel Group " ++ toString (i + 1) else grp.name
      let r := runParallelGroupWithCallbacksModel cfg env i grp.steps
      match r.2 with
      | .error e =>
        (r.1, .error ("parallel group " ++ quoteName groupName ++ " failed: " ++ e))
      | .ok () => (r.1, .ok ())
    | none =>
      let step := item.asStep
      let r := runStepModel cfg env step true i 0
      let evs := Event.stepStart i 0 step.name "" :: r.1 ++
        [Event.stepComplete i 0 step.name (resultOf r.2) (errOf r.2)]
      match r.2 with
      | .error e => (evs, .error ("step " ++ quoteName step.name ++ " failed: " ++ e))
      | .ok result =>
        if result ≠ "SUCCESS" then
          (evs, .error ("step " ++ quoteName step.name ++ " failed with result: " ++ result))
        else (evs, .ok ())

/-- The sequential walk of `RunWithCallbacks`: items run strictly in order,
and the first error stops the loop. -/
def runItemsWC (cfg : Config) (env : EngineEnv) (skipPRCheck : Bool) :
    Nat → List WorkflowItem → List Event × Except String Unit
  | _, [] => ([], .ok ())
  | i, item :: rest =>
    let r1 := runItemWC cfg env skipPRCheck i item
    match r1.2 with
    | .error e => (r1.1, .error e)
    | .ok () =>
      let r2 := runItemsWC cfg env skipPRCheck (i + 1) rest
      (r1.1 ++ r2.1, r2.2)

/-- `RunWithCallbacks` from `pkg/workflow/engine.go` (lines 106-195). -/
def runWithCallbacksModel (cfg : Config) (env : EngineEnv) (skipPRCheck : Bool) :
    List Event × Except String Unit :=
  runItemsWC cfg env skipPRCheck 0 cfg.workflow

/-- The loop body of `Run` (lines 29-87): identical control flow to
`runItemWC` with a nil callback (no events). -/
def runItemNC (cfg : Config) (env : EngineEnv) (skipPRCheck : Bool) (i : Nat)
    (item : WorkflowItem) : Except String Unit :=
  match item.waitForPR with
  | some pr =>
    if skipPRCheck then .ok ()
    else
      match env.prOutcome i with
      | .error e => .error ("PR wait " ++ quoteName pr.name ++ " failed: " ++ e)
      | .ok () => .ok ()
  | none =>
    match item.parallel with
    | some grp =>
      let groupName := if grp.name = "" then "Parallel Group " ++ toString (i + 1) else grp.name
      match runParallelGroupModel cfg env i grp.steps with
      | .error e => .error ("parallel group " ++ quoteName groupName ++ " failed: " ++ e)
      | .ok () => .ok ()
    | none =>
      let step := item.asStep
      match (runStepModel cfg env step false i 0).2 with
      | .error e => .error ("step " ++ quoteName step.name ++ " failed: " ++ e)
      | .ok result =>
        if result ≠ "SUCCESS" then
          .error ("step " ++ quoteName step.name ++ " failed with result: " ++ result)
        else .ok ()

/-- The sequential walk of `Run`. -/
def runItemsNC (cfg : Config) (env : EngineEnv) (skipPRCheck : Bool) :
    Nat → List WorkflowItem → Except String Unit
  | _, [] => .ok ()
  | i, item :: rest =>
    match runItemNC cfg env skipPRCheck i item with
    | .error e => .error e
    | .ok () => runItemsNC cfg env skipPRCheck (i + 1) rest

/-- `Run` from `pkg/workflow/engine.go` (lines 25-93). -/
def runModel (cfg : Config) (env : EngineEnv) (skipPRCheck : Bool) :
    Except String Unit :=
  runItemsNC cfg env skipPRCheck 0 cfg.workflow

/-- The parallel-group value `UpdateStepStatus` stores for an in-range
member update: the member at `si` is overwritten by `applyStepUpdate` and
the group status is recomputed by `updateParallelGroupStatus`. -/
def pgAfterUpdate (pg : ParallelGroupState) (si : Nat)
    (status result errMsg buildURL : String) (now : Nat) : ParallelGroupState :=
  let updated := applyStepUpdate now status result errMsg buildURL (pg.steps.getD si default)
  updateParallelGroupStatus ({ pg with steps := pg.steps.set si updated })

/-- An item with its parallel payload replaced. -/
def itemWithParallel (item : WorkflowItemState) (pgNew : ParallelGroupState) :
    WorkflowItemState :=
  { item with parallel := some pgNew }

/-- A workflow state with the item at `ii` replaced. -/
def stWithItem (st : WorkflowState) (ii : Nat) (itemNew : WorkflowItemState) :
    WorkflowState :=
  { st with items := st.items.set ii itemNew }

/-- The concrete two-member group used by the C6 counterexample: one
`success` member and one `skipped` member. -/
def skippedSuccessGroup : ParallelGroupState :=
  ⟨"g", [⟨"a", "i", "j", statusSuccess, "", "", none, none, ""⟩,
         ⟨"b", "i", "j", statusSkipped, "", "", none, none, ""⟩], statusRunning⟩

/-- A one-step workflow item used to exhibit `GetState`'s shallow copy. -/
def pendingStepItem : WorkflowItemState :=
  ⟨false, false, some ⟨"s", "i", "j", statusPending, "", "", none, none, ""⟩, none, none⟩

/-- A heap-level manager holding one running workflow whose items array
lives at address `0`. -/
def aliasSM : StateManagerH :=
  ⟨some ⟨"wf", statusRunning, 0, none, none, ""⟩, true, fun _ => [pendingStepItem]⟩

/-- A concrete single-step item whose build fails (used by witnesses). -/
def stepItemA : WorkflowItem := ⟨"build", "ci", "job1", [], none, none⟩

/-- A second concrete single-step item (used by witnesses). -/
def stepItemB : WorkflowItem := ⟨"deploy", "ci", "job2", [], none, none⟩

/-- A concrete config with one Jenkins instance and two steps. -/
def cfgW : Config := ⟨"wf", [("ci", ⟨"http://jenkins", "", "tok"⟩)], [stepItemA, stepItemB]⟩

/-- A concrete oracle where item 0's build errors and every other build
returns `"SUCCESS"`. -/
def envW : EngineEnv :=
  ⟨fun _ => .ok "tok", fun _ _ => .ok "q", fun _ _ => .ok "http://jenkins/job/1",
   fun i _ => if i = 0 then .error "boom" else .ok "SUCCESS",
   fun _ => .ok (), fun _ => 0, fun _ => [0]⟩

/-- A concrete oracle where every build returns `"UNSTABLE"`. -/
def envU : EngineEnv :=
  ⟨fun _ => .ok "tok", fun _ _ => .ok "q", fun _ _ => .ok "http://jenkins/job/2",
   fun _ _ => .ok "UNSTABLE", fun _ => .ok (), fun _ => 0, fun _ => [0]⟩

/-- A concrete one-step parallel-group item (used by witnesses). -/
def parItemW : WorkflowItem :=
  ⟨"", "", "", [], some ⟨"par", [⟨"pstep", "ci", "job3", []⟩]⟩, none⟩

/-- Two concrete parallel steps (used by witnesses). -/
def parSteps : List Step := [⟨"s0", "ci", "j0", []⟩, ⟨"s1", "ci", "j1", []⟩]

/-- A concrete oracle for a two-step parallel group: step 1's build errors,
step 0's build returns `"FAILURE"`, and step 1 completes first. -/
def envP : EngineEnv :=
  ⟨fun _ => .ok "tok", fun _ _ => .ok "q", fun _ _ => .ok "http://jenkins/job/3",
   fun _ sj => if sj = 1 then .error "boom" else .ok "FAILURE",
   fun _ => .ok (), fun _ => 0, fun _ => [1, 0]⟩

/-! ## Theorems -/

/-- C5: `FindPRByBranch` filters the open PRs by case-insensitive equality
of the head-branch name; every response with zero matching PRs yields an
error, every response with two or more matching PRs yields an error, and a
unique match returns exactly that PR — never a best-guess pick. -/
theorem findPRByBranch_unique_match (pulls : List PRStatus) (branch : String)
    (hb : branch ≠ "") :
    (∀ p, findPRByBranch pulls branch = .ok p ↔
        pulls.filter (fun q => eqFold q.headRef branch) = [p]) ∧
    (pulls.filter (fun q => eqFold q.headRef branch) = [] →
        ∃ e, findPRByBranch pulls branch = .error e) ∧
    (2 ≤ (pulls.filter (fun q => eqFold q.headRef branch)).length →
        ∃ e, findPRByBranch pulls branch = .error e) := by
  unfold findPRByBranch
  rw [if_neg hb]
  cases h : pulls.filter (fun q => eqFold q.headRef branch) with
  | nil => simp
  | cons a t =>
    cases t with
    | nil => simp
    | cons b t' => simp

/-- Witness for C5: on a one-element response whose head branch differs only
in case, the unique match is returned; on the empty response an error is
returned. -/
theorem findPRByBranch_unique_match_witness :
    findPRByBranch [⟨42, "open", false, "t", "u", "Release/V1"⟩] "release/v1" =
      .ok ⟨42, "open", false, "t", "u", "Release/V1"⟩ ∧
    ∃ e, findPRByBranch [] "release/v1" = .error e := by
  constructor
  · exact ((findPRByBranch_unique_match
      [⟨42, "open", false, "t", "u", "Release/V1"⟩] "release/v1" (by decide)).1
      ⟨42, "open", false, "t", "u", "Release/V1"⟩).mpr (by decide)
  · exact (findPRByBranch_unique_match [] "release/v1" (by decide)).2.1 (by decide)

/-- C4: `WaitForPRStatus` checks the PR state once immediately, before any
sleep: a decisive first fetch returns without consuming any tick.  For
target `"merged"` it succeeds exactly when the PR reports `merged = true`,
fails terminally (a returned error, no further polling) when the PR is
closed without being merged, and keeps polling while the PR is open and
unmerged.  For target `"closed"` it succeeds exactly when the state is
`"closed"`, regardless of the merged flag. -/
theorem waitForPRStatus_target_states (pr : PRStatus) :
    (∀ target c rest, checkPRState pr target = ⟨true, none⟩ →
        waitForPRStatus target c 0 (.ok pr :: rest) = .ok (some pr)) ∧
    ((checkPRState pr "merged").done = true ↔ pr.merged = true) ∧
    (pr.state = "closed" → pr.merged = false →
        ∀ c rest, waitForPRStatus "merged" c 0 (.ok pr :: rest) =
          .error "PR was closed without being merged") ∧
    (pr.state = "open" → pr.merged = false →
        ∀ t rest, waitForPRStatus "merged" none t (.ok pr :: rest) =
          waitForPRStatus "merged" none (t + 1) rest) ∧
    ((checkPRState pr "closed").done = true ↔ pr.state = "closed") := by
  refine ⟨?_, ?_, ?_, ?_, ?_⟩
  · intro target c rest h
    simp [waitForPRStatus, h]
  · cases hm : pr.merged <;> simp [checkPRState, hm]
    split <;> simp
  · intro hs hm c rest
    simp [waitForPRStatus, checkPRState, hs, hm]
  · intro hs hm t rest
    have hsc : pr.state = "closed" ↔ False := by
      constructor
      · intro h; rw [hs] at h; exact absurd h (by decide)
      · exact False.elim
    simp [waitForPRStatus, checkPRState, cancelledAt, hm, hsc]
  · by_cases hs : pr.state = "closed" <;> simp [checkPRState, hs]

/-- Witness for C4: an already-merged PR succeeds on the immediate check; a
PR closed without being merged fails terminally on the immediate check. -/
theorem waitForPRStatus_target_states_witness :
    waitForPRStatus "merged" none 0 [.ok ⟨1, "open", true, "t", "u", "b"⟩] =
      .ok (some ⟨1, "open", true, "t", "u", "b"⟩) ∧
    waitForPRStatus "merged" none 0 [.ok ⟨2, "closed", false, "t", "u", "b"⟩] =
      .error "PR was closed without being merged" := by
  constructor
  · exact (waitForPRStatus_target_states ⟨1, "open", true, "t", "u", "b"⟩).1
      "merged" none [] (by decide)
  · exact (waitForPRStatus_target_states ⟨2, "closed", false, "t", "u", "b"⟩).2.2.1
      (by decide) (by decide) none []

/-- Helper: a successful `validateItems` run validates every item, at its
own index. -/
theorem validateItems_ok_nth (c : Config) :
    ∀ (items : List WorkflowItem) (i j : Nat),
      validateItems c i items = .ok () → j < items.length →
      validateItem c (i + j) (items.getD j default) = .ok () := by
  intro items
  induction items with
  | nil => intro i j _ hj; simp at hj
  | cons item rest ih =>
    intro i j h hj
    rw [validateItems] at h
    cases hv : validateItem c i item with
    | error e => rw [hv] at h; simp at h
    | ok u =>
      rw [hv] at h
      cases j with
      | zero => simpa using hv
      | succ j' =>
        have hr := ih (i + 1) j' h (by simpa using Nat.lt_of_succ_lt_succ hj)
        have heq : i + (j' + 1) = (i + 1) + j' := by omega
        rw [heq]
        simpa using hr

/-- C9: `validatePRWait` succeeds exactly when name, owner and repo are
present, exactly one of `pr_number` / `head_branch` is set, and `wait_for`
is `"merged"` or `"closed"`; in particular a PR gate with both or with
neither of `pr_number`/`head_branch` is rejected.  Moreover any `Config`
accepted by `validate` (which `Load` runs before execution can begin) has
every PR-gate item set exactly one of the two. -/
theorem validatePRWait_exactly_one (pr : PRWait) (loc : String) :
    (validatePRWait pr loc = .ok () ↔
      (pr.name ≠ "" ∧ pr.owner ≠ "" ∧ pr.repo ≠ "" ∧
       ((0 < pr.prNumber ∧ pr.headBranch = "") ∨
        (pr.prNumber ≤ 0 ∧ pr.headBranch ≠ "")) ∧
       (pr.waitFor = "merged" ∨ pr.waitFor = "closed"))) ∧
    (∀ (c : Config) (j : Nat) (pr' : PRWait),
       c.validate = .ok () → j < c.workflow.length →
       (c.workflow.getD j default).waitForPR = some pr' →
       ((0 < pr'.prNumber ∧ pr'.headBranch = "") ∨
        (pr'.prNumber ≤ 0 ∧ pr'.headBranch ≠ ""))) := by
  have char : ∀ (q : PRWait) (l : String), validatePRWait q l = .ok () ↔
      (q.name ≠ "" ∧ q.owner ≠ "" ∧ q.repo ≠ "" ∧
       ((0 < q.prNumber ∧ q.headBranch = "") ∨
        (q.prNumber ≤ 0 ∧ q.headBranch ≠ "")) ∧
       (q.waitFor = "merged" ∨ q.waitFor = "closed")) := by
    intro q l
    unfold validatePRWait
    split_ifs with h1 h2 h3 h4 h5 h6 h7
    · exact iff_of_false (by simp) (by rintro ⟨hn, -⟩; exact hn h1)
    · exact iff_of_false (by simp) (by rintro ⟨-, hn, -⟩; exact hn h2)
    · exact iff_of_false (by simp) (by rintro ⟨-, -, hn, -⟩; exact hn h3)
    · simp only [Bool.and_eq_true, decide_eq_true_eq] at h4
      refine iff_of_false (by simp) ?_
      rintro ⟨-, -, -, ⟨hpos, -⟩ | ⟨-, hhb⟩, -⟩
      · omega
      · exact hhb h4.2
    · simp only [Bool.and_eq_true, decide_eq_true_eq] at h5
      refine iff_of_false (by simp) ?_
      rintro ⟨-, -, -, ⟨-, hhb⟩ | ⟨hle, -⟩, -⟩
      · exact h5.2 hhb
      · omega
    · refine iff_of_false (by simp) ?_
      rintro ⟨-, -, -, -, hw | hw⟩ <;> rw [h6] at hw <;> exact absurd hw (by decide)
    · simp only [Bool.and_eq_true, decide_eq_true_eq] at h7
      refine iff_of_false (by simp) ?_
      rintro ⟨-, -, -, -, hw | hw⟩
      · exact h7.1 hw
      · exact h7.2 hw
    · simp only [Bool.and_eq_true, decide_eq_true_eq] at h4 h5 h7
      refine iff_of_true rfl ⟨h1, h2, h3, ?_, ?_⟩
      · by_cases hpos : 0 < q.prNumber
        · have hhb : q.headBranch = "" := by
            by_contra hhb
            exact h5 ⟨hpos, hhb⟩
          exact .inl ⟨hpos, hhb⟩
        · have hle : q.prNumber ≤ 0 := by omega
          have hhb : q.headBranch ≠ "" := fun hhb => h4 ⟨hle, hhb⟩
          exact .inr ⟨hle, hhb⟩
      · by_cases hw : q.waitFor = "merged"
        · exact .inl hw
        · have hc : q.waitFor = "closed" := by
            by_contra hc
            exact h7 ⟨hw, hc⟩
          exact .inr hc
  refine ⟨char pr loc, ?_⟩
  intro c j pr' hv hj hpr
  rw [Config.validate] at hv
  split_ifs at hv
  have hitem := validateItems_ok_nth c c.workflow 0 j hv hj
  rw [validateItem] at hitem
  have hw : (c.workflow.getD j default).isPRWait = true := by
    simp only [WorkflowItem.isPRWait, hpr, Option.isSome_some]
  rw [if_pos hw, hpr] at hitem
  exact (((char pr' _).mp (by simpa using hitem)).2.2.2).1

/-- Witness for C9: a gate with only `head_branch` passes validation; a
config whose single workflow item is that gate passes `validate`, and the
theorem recovers the exactly-one property for it. -/
theorem validatePRWait_exactly_one_witness :
    validatePRWait ⟨"g", "o", "r", 0, "merged", 0, "main", "", ""⟩ "wait_for_pr[0]" = .ok () ∧
    ((0 : Int) < (0 : Int) ∧ "main" = "" ∨ (0 : Int) ≤ 0 ∧ "main" ≠ "") := by
  constructor
  · exact (validatePRWait_exactly_one ⟨"g", "o", "r", 0, "merged", 0, "main", "", ""⟩
      "wait_for_pr[0]").1.mpr (by decide)
  · exact (validatePRWait_exactly_one ⟨"g", "o", "r", 0, "merged", 0, "main", "", ""⟩
      "x").2 ⟨"w", [⟨"i", ⟨"u", "e", "t"⟩⟩],
        [⟨"", "", "", [], none, some ⟨"g", "o", "r", 0, "merged", 0, "main", "", ""⟩⟩]⟩
      0 ⟨"g", "o", "r", 0, "merged", 0, "main", "", ""⟩ rfl (by decide) rfl

/-- C10: every `StateManager` mutator is a total function (it is defined by
structural recursion-free case analysis, so it cannot panic) and leaves the
whole state unchanged when there is no current workflow, when the item
index is at or beyond the number of items, when the step index is at or
beyond the parallel group's length, or when the addressed item is of a
different kind than the mutator targets. -/
theorem stateManager_mutators_noop (sm : StateManager) (ii si : Nat)
    (status result errMsg buildURL name owner repo headBranch waitFor htmlURL title : String)
    (prNumber : Int) (now : Nat) :
    (sm.current = none →
      sm.updateStepStatus ii si status result errMsg buildURL now = sm ∧
      sm.startPRWait ii name owner repo headBranch waitFor prNumber htmlURL title now = sm ∧
      sm.updatePRWaitMetadata ii prNumber htmlURL title = sm ∧
      sm.completePRWait ii now = sm ∧
      sm.failPRWait ii errMsg now = sm) ∧
    (∀ st, sm.current = some st → st.items.length ≤ ii →
      sm.updateStepStatus ii si status result errMsg buildURL now = sm ∧
      sm.startPRWait ii name owner repo headBranch waitFor prNumber htmlURL title now = sm ∧
      sm.updatePRWaitMetadata ii prNumber htmlURL title = sm ∧
      sm.completePRWait ii now = sm ∧
      sm.failPRWait ii errMsg now = sm) ∧
    (∀ st pg, sm.current = some st → ii < st.items.length →
      (st.items.getD ii default).isParallel = true →
      (st.items.getD ii default).parallel = some pg →
      pg.steps.length ≤ si →
      sm.updateStepStatus ii si status result errMsg buildURL now = sm) ∧
    (∀ st, sm.current = some st → ii < st.items.length →
      ((st.items.getD ii default).isParallel = false ∨
        (st.items.getD ii default).parallel = none) →
      (st.items.getD ii default).step = none →
      sm.updateStepStatus ii si status result errMsg buildURL now = sm) ∧
    (∀ st, sm.current = some st → ii < st.items.length →
      ((st.items.getD ii default).isPRWait = false ∨
        (st.items.getD ii default).prWait = none) →
      sm.startPRWait ii name owner repo headBranch waitFor prNumber htmlURL title now = sm ∧
      sm.updatePRWaitMetadata ii prNumber htmlURL title = sm ∧
      sm.completePRWait ii now = sm ∧
      sm.failPRWait ii errMsg now = sm) := by
  refine ⟨?_, ?_, ?_, ?_, ?_⟩
  · intro h
    refine ⟨?_, ?_, ?_, ?_, ?_⟩ <;>
      simp [StateManager.updateStepStatus, StateManager.startPRWait,
        StateManager.updatePRWaitMetadata, StateManager.completePRWait,
        StateManager.failPRWait, h]
  · intro st h hlen
    refine ⟨?_, ?_, ?_, ?_, ?_⟩ <;>
      simp [StateManager.updateStepStatus, StateManager.startPRWait,
        StateManager.updatePRWaitMetadata, StateManager.completePRWait,
        StateManager.failPRWait, h, hlen]
  · intro st pg h hlen hpar hpg hsi
    simp only [List.getD_eq_getElem?_getD] at hpar hpg
    simp [StateManager.updateStepStatus, h, Nat.not_le.mpr hlen, hpar, hpg, hsi]
  · intro st h hlen hkind hstep
    simp only [List.getD_eq_getElem?_getD] at hkind hstep
    rcases hkind with hk | hk <;>
      simp [StateManager.updateStepStatus, h, Nat.not_le.mpr hlen, hk, hstep]
  · intro st h hlen hkind
    simp only [List.getD_eq_getElem?_getD] at hkind
    refine ⟨?_, ?_, ?_, ?_⟩ <;> rcases hkind with hk | hk <;>
      simp [StateManager.startPRWait, StateManager.updatePRWaitMetadata,
        StateManager.completePRWait, StateManager.failPRWait, h,
        Nat.not_le.mpr hlen, hk]

/-- Witness for C10: the mutators are no-ops on a manager with no current
workflow, and on an out-of-range item index. -/
theorem stateManager_mutators_noop_witness :
    StateManager.updateStepStatus ⟨none, false⟩ 0 0 "running" "" "" "" 1 = ⟨none, false⟩ ∧
    StateManager.completePRWait ⟨some ⟨"w", "running", [], none, none, ""⟩, true⟩ 3 1 =
      ⟨some ⟨"w", "running", [], none, none, ""⟩, true⟩ := by
  constructor
  · exact ((stateManager_mutators_noop ⟨none, false⟩ 0 0 "running" "" "" "" "" "" "" "" ""
      "" "" 0 1).1 rfl).1
  · exact ((stateManager_mutators_noop ⟨some ⟨"w", "running", [], none, none, ""⟩, true⟩ 3 0
      "" "" "" "" "" "" "" "" "" "" "" 0 1).2.1 ⟨"w", "running", [], none, none, ""⟩ rfl
      (by decide)).2.2.2.1

/-- Helper: `List.any` distributes over a pointwise `||`. -/
theorem list_any_or {b : Type} (l : List b) (p q : b → Bool) :
    l.any (fun a => p a || q a) = (l.any p || l.any q) := by
  induction l with
  | nil => simp
  | cons x t ih =>
    simp [ih, Bool.or_assoc, Bool.or_left_comm]

/-- Helper: closed form of `updateParallelGroupStatus`'s accumulator loop.
A member contributes to the flags only when its status is `running`,
`failed` or `pending`; `success` and `skipped` members leave them
untouched. -/
theorem foldl_aggStep_spec (l : List StepState) (f : AggFlags) :
    l.foldl aggStep f =
      (AggFlags.mk
        (f.allSuccess && !l.any (fun s => s.status = statusRunning ||
          s.status = statusFailed || s.status = statusPending))
        (f.anyRunning || l.any (fun s => s.status = statusRunning))
        (f.anyFailed || l.any (fun s => s.status = statusFailed))) := by
  induction l generalizing f with
  | nil => simp
  | cons s t ih =>
    rw [List.foldl_cons, ih]
    unfold aggStep
    split_ifs with h1 h2 h3 <;>
      simp_all [statusRunning, statusFailed, statusPending,
        Bool.and_assoc, Bool.or_assoc]

/-- Helper: the aggregation rule the code actually computes, as an
if-chain over the member statuses. -/
theorem updateParallelGroupStatus_status (q : ParallelGroupState) :
    (updateParallelGroupStatus q).status =
      (if q.steps.any (fun s => s.status = statusFailed) then statusFailed
       else if q.steps.any (fun s => s.status = statusRunning) then statusRunning
       else if q.steps.any (fun s => s.status = statusPending) then statusPending
       else statusSuccess) := by
  unfold updateParallelGroupStatus
  rw [foldl_aggStep_spec]
  simp only [list_any_or]
  by_cases hf : q.steps.any (fun s => s.status = statusFailed) = true <;>
    by_cases hr : q.steps.any (fun s => s.status = statusRunning) = true <;>
      by_cases hp : q.steps.any (fun s => s.status = statusPending) = true <;>
        simp [hf, hr, hp]

/-- Helper: the exact shape of `UpdateStepStatus` on an in-range member of
a parallel item. -/
theorem updateStepStatus_parallel_eq (sm : StateManager) (ii si : Nat)
    (status result errMsg buildURL : String) (now : Nat)
    (st : WorkflowState) (pg : ParallelGroupState)
    (h : sm.current = some st) (hlen : ii < st.items.length)
    (hpar : (st.items.getD ii default).isParallel = true)
    (hpg : (st.items.getD ii default).parallel = some pg)
    (hsi : si < pg.steps.length) :
    sm.updateStepStatus ii si status result errMsg buildURL now =
      { sm with current := some (stWithItem st ii
        (itemWithParallel (st.items.getD ii default)
          (pgAfterUpdate pg si status result errMsg buildURL now))) } := by
  simp only [StateManager.updateStepStatus, h]
  rw [if_neg (Nat.not_le.mpr hlen)]
  simp only [hpar, hpg, Option.isSome_some, Bool.and_self, eq_self_iff_true, if_true]
  rw [if_neg (Nat.not_le.mpr hsi)]
  unfold stWithItem itemWithParallel pgAfterUpdate
  rw [hpar]

/-- Counterexample for C6: a parallel group whose members are one `success`
and one `skipped` step aggregates to `success`, although not every member
succeeded — the claimed rule (`success` only if every member succeeded,
else `pending`) demands `pending` here. -/
theorem updateParallelGroupStatus_skipped_counterexample :
    (updateParallelGroupStatus skippedSuccessGroup).status = statusSuccess ∧
    (skippedSuccessGroup.steps.getD 1 default).status ≠ statusSuccess := by
  constructor
  · rfl
  · decide

/-- C6 (amended): the aggregated status of a parallel group is `failed` if
any member failed; else `running` if any member is running; else `pending`
if any member is pending; else `success` — members whose status is
`skipped` (or `success`) count as satisfied, so a group of success and
skipped members reports `success` even though not every member succeeded.
The same rule holds for the group recomputed by every in-range
`UpdateStepStatus` call on a member of a parallel item. -/
theorem updateParallelGroupStatus_rule (pg : ParallelGroupState) :
    ((updateParallelGroupStatus pg).status =
      (if pg.steps.any (fun s => s.status = statusFailed) then statusFailed
       else if pg.steps.any (fun s => s.status = statusRunning) then statusRunning
       else if pg.steps.any (fun s => s.status = statusPending) then statusPending
       else statusSuccess) ∧
     (updateParallelGroupStatus pg).steps = pg.steps) ∧
    (∀ (sm : StateManager) (ii si : Nat) (status result errMsg buildURL : String)
        (now : Nat) (st : WorkflowState),
      sm.current = some st → ii < st.items.length →
      (st.items.getD ii default).isParallel = true →
      (st.items.getD ii default).parallel = some pg →
      si < pg.steps.length →
      ∃ st2 pg2,
        (sm.updateStepStatus ii si status result errMsg buildURL now).current = some st2 ∧
        (st2.items.getD ii default).parallel = some pg2 ∧
        pg2.steps = pg.steps.set si
          (applyStepUpdate now status result errMsg buildURL (pg.steps.getD si default)) ∧
        pg2.status =
          (if pg2.steps.any (fun s => s.status = statusFailed) then statusFailed
           else if pg2.steps.any (fun s => s.status = statusRunning) then statusRunning
           else if pg2.steps.any (fun s => s.status = statusPending) then statusPending
           else statusSuccess)) := by
  refine ⟨⟨updateParallelGroupStatus_status pg, by unfold updateParallelGroupStatus; rfl⟩, ?_⟩
  intro sm ii si status result errMsg buildURL now st h hlen hpar hpg hsi
  rw [updateStepStatus_parallel_eq sm ii si status result errMsg buildURL now st pg
    h hlen hpar hpg hsi]
  refine ⟨stWithItem st ii (itemWithParallel (st.items.getD ii default)
      (pgAfterUpdate pg si status result errMsg buildURL now)),
    pgAfterUpdate pg si status result errMsg buildURL now, rfl, ?_, ?_, ?_⟩
  · show ((stWithItem st ii _).items.getD ii default).parallel = _
    unfold stWithItem
    have hget : ∀ itemNew : WorkflowItemState,
        (st.items.set ii itemNew).getD ii default = itemNew := by
      intro itemNew
      simp [List.getD_eq_getElem?_getD, List.getElem?_set_self, hlen]
    rw [hget]
    rfl
  · unfold pgAfterUpdate updateParallelGroupStatus
    rfl
  · exact updateParallelGroupStatus_status _

/-- Witness for C6 (amended): updating the only member of a one-step
parallel group to `failed` stores a recomputed group that follows the
amended rule. -/
theorem updateParallelGroupStatus_rule_witness :
    ∃ st2 pg2,
      (StateManager.updateStepStatus
          ⟨some ⟨"w", statusRunning,
            [⟨true, false, none,
              some ⟨"g", [⟨"a", "i", "j", statusRunning, "", "", none, none, ""⟩],
                statusRunning⟩, none⟩], none, none, ""⟩, true⟩
          0 0 statusFailed "FAILURE" "boom" "" 4).current = some st2 ∧
      (st2.items.getD 0 default).parallel = some pg2 ∧
      pg2.steps = [⟨"a", "i", "j", statusRunning, "", "", none, none, ""⟩].set 0
        (applyStepUpdate 4 statusFailed "FAILURE" "boom" ""
          ([⟨"a", "i", "j", statusRunning, "", "", none, none, ""⟩].getD 0 default)) ∧
      pg2.status =
        (if pg2.steps.any (fun s => s.status = statusFailed) then statusFailed
         else if pg2.steps.any (fun s => s.status = statusRunning) then statusRunning
         else if pg2.steps.any (fun s => s.status = statusPending) then statusPending
         else statusSuccess) :=
  (updateParallelGroupStatus_rule
      ⟨"g", [⟨"a", "i", "j", statusRunning, "", "", none, none, ""⟩], statusRunning⟩).2
    ⟨some ⟨"w", statusRunning,
      [⟨true, false, none,
        some ⟨"g", [⟨"a", "i", "j", statusRunning, "", "", none, none, ""⟩],
          statusRunning⟩, none⟩], none, none, ""⟩, true⟩
    0 0 statusFailed "FAILURE" "boom" "" 4
    ⟨"w", statusRunning,
      [⟨true, false, none,
        some ⟨"g", [⟨"a", "i", "j", statusRunning, "", "", none, none, ""⟩],
          statusRunning⟩, none⟩], none, none, ""⟩
    rfl (by decide) (by decide) (by decide) (by decide)

/-- Counterexample for C7: a run that ends because the caller cancelled the
root context completes the in-memory `WorkflowState` as `failed` with the
cancellation error message in `WorkflowState.Error` — not as the claimed
distinct `"stopped"` status (which only the database run record of the
db-enabled `runWorkflow` receives). -/
theorem runWorkflow_cancelled_counterexample :
    ∃ st, (runWorkflowComplete ⟨some ⟨"wf", statusRunning, [], none, none, ""⟩, true⟩
        (some "context canceled") 9).current = some st ∧
      st.status = statusFailed ∧ st.status ≠ "stopped" ∧
      st.error = "context canceled" ∧
      runWorkflowFinalStatus (some "context canceled") true = "stopped" := by
  refine ⟨⟨"wf", statusFailed, [], none, some 9, "context canceled"⟩, rfl, rfl,
    by decide, rfl, rfl⟩

/-- C7 (amended): on caller cancellation the database-enabled `runWorkflow`
records `"stopped"` in the run-history record (and `"failed"` only for
organic errors), but both `runWorkflow` revisions complete the in-memory
`WorkflowState` as `failed` with the error message, for cancellation and
organic failure alike; `"stopped"` is never a `WorkflowState` status. -/
theorem runWorkflow_stopped_only_in_history (sm : StateManager)
    (st : WorkflowState) (e : String) (now : Nat) (b : Bool) :
    runWorkflowFinalStatus (some e) true = "stopped" ∧
    runWorkflowFinalStatus (some e) false = "failed" ∧
    runWorkflowFinalStatus none b = "success" ∧
    (sm.current = some st →
      ∃ st2, (runWorkflowComplete sm (some e) now).current = some st2 ∧
        st2.status = statusFailed ∧ st2.error = e) := by
  refine ⟨rfl, rfl, rfl, ?_⟩
  intro h
  simp only [runWorkflowComplete, StateManager.completeWorkflow, h]
  exact ⟨_, rfl, rfl, rfl⟩

/-- Witness for C7 (amended): concrete completion of a cancelled run. -/
theorem runWorkflow_stopped_only_in_history_witness :
    ∃ st2, (runWorkflowComplete ⟨some ⟨"wf", statusRunning, [], none, none, ""⟩, true⟩
        (some "context canceled") 9).current = some st2 ∧
      st2.status = statusFailed ∧ st2.error = "context canceled" :=
  (runWorkflow_stopped_only_in_history
    ⟨some ⟨"wf", statusRunning, [], none, none, ""⟩, true⟩
    ⟨"wf", statusRunning, [], none, none, ""⟩ "context canceled" 9 true).2.2.2 rfl

/-- C8 (code bug): `GetState` copies only the `WorkflowState` struct, so the
snapshot's `Items` slice shares the live backing array; a later
`UpdateStepStatus` on the live state is visible through the previously
returned snapshot, contradicting the deep-copy contract. -/
theorem getState_snapshot_aliases_live :
    ∃ snap, aliasSM.getState = some snap ∧
      aliasSM.readItems snap = [pendingStepItem] ∧
      (aliasSM.updateStepStatus 0 0 statusRunning "" "" "http://jenkins/1" 7).readItems
          snap ≠ aliasSM.readItems snap := by
  refine ⟨⟨"wf", statusRunning, 0, none, none, ""⟩, rfl, rfl, ?_⟩
  decide

/-- Helper: every event `runStepModel` emits carries the item index it was
called with. -/
theorem runStepModel_events_item (cfg : Config) (env : EngineEnv) (step : Step)
    (wc : Bool) (i j : Nat) :
    ∀ ev ∈ (runStepModel cfg env step wc i j).1, ev.item = i := by
  intro ev hev
  unfold runStepModel at hev
  repeat' split at hev
  all_goals simp_all [Event.item]

/-- Helper: every event a parallel-group task emits carries the group's
item index. -/
theorem parallelTask_events_item (cfg : Config) (env : EngineEnv) (i : Nat)
    (steps : List Step) (j : Nat) :
    ∀ ev ∈ (parallelTask cfg env i steps j).1, ev.item = i := by
  intro ev hev
  simp only [parallelTask] at hev
  simp only [List.mem_append, List.mem_cons, List.mem_singleton, List.mem_nil_iff, or_false] at hev
  rcases hev with (h | h) | h
  · subst h; rfl
  · exact runStepModel_events_item cfg env _ true i j ev h
  · subst h; rfl

/-- Helper: every event `runPRWait` reports carries the gate's item index. -/
theorem runPRWaitModel_events_item (env : EngineEnv) (wc : Bool) (i : Nat) :
    ∀ ev ∈ (runPRWaitModel env wc i).1, ev.item = i := by
  intro ev hev
  simp only [runPRWaitModel] at hev
  cases wc with
  | false => simp at hev
  | true =>
    rw [if_pos rfl, List.mem_cons] at hev
    rcases hev with h | h
    · subst h; rfl
    · have := List.eq_of_mem_replicate h
      subst this; rfl

/-- Helper: every event `runParallelGroupWithCallbacks` emits carries the
group's item index. -/
theorem runParallelGroupWC_events_item (cfg : Config) (env : EngineEnv)
    (i : Nat) (steps : List Step) :
    ∀ ev ∈ (runParallelGroupWithCallbacksModel cfg env i steps).1, ev.item = i := by
  intro ev hev
  simp only [runParallelGroupWithCallbacksModel] at hev
  rw [List.mem_flatten] at hev
  obtain ⟨l, hl, hev⟩ := hev
  rw [List.mem_map] at hl
  obtain ⟨t, ht, hl⟩ := hl
  rw [List.mem_map] at ht
  obtain ⟨jj, _, ht⟩ := ht
  subst ht hl
  exact parallelTask_events_item cfg env i steps jj ev hev

/-- Helper: every event the loop body of `RunWithCallbacks` emits for the
item at index `i` carries index `i`. -/
theorem runItemWC_events_item (cfg : Config) (env : EngineEnv) (skip : Bool)
    (i : Nat) (item : WorkflowItem) :
    ∀ ev ∈ (runItemWC cfg env skip i item).1, ev.item = i := by
  intro ev hev
  simp only [runItemWC] at hev
  cases hpr : item.waitForPR with
  | some pr =>
    simp only [hpr] at hev
    by_cases hskip : skip
    · simp only [if_pos hskip] at hev
      rw [List.mem_cons] at hev
      rcases hev with h | h
      · subst h; rfl
      · rw [List.mem_singleton] at h
        subst h; rfl
    · simp only [if_neg hskip] at hev
      split at hev <;>
        simp only [List.mem_append, List.mem_singleton] at hev <;>
        rcases hev with h | h
      · exact runPRWaitModel_events_item env true i ev h
      · subst h; rfl
      · exact runPRWaitModel_events_item env true i ev h
      · subst h; rfl
  | none =>
    simp only [hpr] at hev
    cases hpar : item.parallel with
    | some grp =>
      simp only [hpar] at hev
      split at hev <;>
        exact runParallelGroupWC_events_item cfg env i grp.steps ev hev
    | none =>
      simp only [hpar] at hev
      have hstep : ∀ h2 : ev ∈ (runStepModel cfg env item.asStep true i 0).1,
          ev.item = i :=
        fun h2 => runStepModel_events_item cfg env item.asStep true i 0 ev h2
      split at hev
      · simp only [List.mem_append, List.mem_cons, List.mem_singleton, List.mem_nil_iff, or_false] at hev
        rcases hev with (h | h) | h
        · subst h; rfl
        · exact hstep h
        · subst h; rfl
      · split at hev <;>
          simp only [List.mem_append, List.mem_cons, List.mem_singleton, List.mem_nil_iff, or_false] at hev <;>
          rcases hev with (h | h) | h
        · subst h; rfl
        · exact hstep h
        · subst h; rfl
        · subst h; rfl
        · exact hstep h
        · subst h; rfl

/-- Helper: the item indices of the events of a sequential walk starting at
item `i` all lie in `[i, i + length)`. -/
theorem runItemsWC_events_item_bounds (cfg : Config) (env : EngineEnv) (skip : Bool) :
    ∀ (items : List WorkflowItem) (i : Nat),
      ∀ ev ∈ (runItemsWC cfg env skip i items).1,
        i ≤ ev.item ∧ ev.item < i + items.length := by
  intro items
  induction items with
  | nil => intro i ev hev; simp [runItemsWC] at hev
  | cons item rest ih =>
    intro i ev hev
    rw [runItemsWC] at hev
    split at hev
    · have hit := runItemWC_events_item cfg env skip i item ev hev
      simp only [List.length_cons, hit]
      omega
    · simp only [List.mem_append] at hev
      rcases hev with h | h
      · have hit := runItemWC_events_item cfg env skip i item ev h
        simp only [List.length_cons, hit]
        omega
      · have hit := ih (i + 1) ev h
        simp only [List.length_cons]
        omega

/-- Helper: a list of events all reporting the same item index is sorted
by item index. -/
theorem pairwise_of_const_item {l : List Event} {i : Nat}
    (h : ∀ ev ∈ l, ev.item = i) :
    l.Pairwise (fun a b => a.item ≤ b.item) := by
  induction l with
  | nil => exact List.Pairwise.nil
  | cons x t ih =>
    refine List.Pairwise.cons ?_ (ih fun ev hev => h ev (List.mem_cons_of_mem _ hev))
    intro b hb
    rw [h x (List.mem_cons_self x t), h b (List.mem_cons_of_mem _ hb)]

/-- Helper: the events of the sequential walk are sorted by item index —
the engine never begins item `i + 1` before item `i` is terminal. -/
theorem runItemsWC_events_sorted (cfg : Config) (env : EngineEnv) (skip : Bool) :
    ∀ (items : List WorkflowItem) (i : Nat),
      ((runItemsWC cfg env skip i items).1).Pairwise (fun a b => a.item ≤ b.item) := by
  intro items
  induction items with
  | nil => intro i; simp [runItemsWC]
  | cons item rest ih =>
    intro i
    rw [runItemsWC]
    split
    · exact pairwise_of_const_item (runItemWC_events_item cfg env skip i item)
    · rw [List.pairwise_append]
      refine ⟨pairwise_of_const_item (runItemWC_events_item cfg env skip i item),
        ih (i + 1), ?_⟩
      intro a ha b hb
      rw [runItemWC_events_item cfg env skip i item a ha]
      have := (runItemsWC_events_item_bounds cfg env skip rest (i + 1) b hb).1
      omega

/-- Helper: a failing prefix decides the whole walk of `RunWithCallbacks`:
appending further items changes neither the events nor the error. -/
theorem runItemsWC_error_prefix (cfg : Config) (env : EngineEnv) (skip : Bool) :
    ∀ (pre post : List WorkflowItem) (i : Nat) (evs : List Event) (e : String),
      runItemsWC cfg env skip i pre = (evs, .error e) →
      runItemsWC cfg env skip i (pre ++ post) = (evs, .error e) := by
  intro pre
  induction pre with
  | nil =>
    intro post i evs e h
    rw [runItemsWC] at h
    rw [Prod.mk.injEq] at h
    exact absurd h.2 (by simp)
  | cons item rest ih =>
    intro post i evs e h
    rw [List.cons_append]
    rw [runItemsWC] at h ⊢
    cases hr : (runItemWC cfg env skip i item).2 with
    | error e1 =>
      simp only [hr] at h ⊢
      exact h
    | ok u =>
      cases u
      simp only [hr] at h ⊢
      rw [Prod.mk.injEq] at h
      obtain ⟨h1, h2⟩ := h
      have hpre : runItemsWC cfg env skip (i + 1) rest =
          ((runItemsWC cfg env skip (i + 1) rest).1, Except.error e) := by
        rw [← h2]
      have hfull := ih post (i + 1) _ e hpre
      rw [hfull, ← h1]

/-- Helper: a failing prefix decides the whole walk of `Run` as well. -/
theorem runItemsNC_error_prefix (cfg : Config) (env : EngineEnv) (skip : Bool) :
    ∀ (pre post : List WorkflowItem) (i : Nat) (e : String),
      runItemsNC cfg env skip i pre = .error e →
      runItemsNC cfg env skip i (pre ++ post) = .error e := by
  intro pre
  induction pre with
  | nil =>
    intro post i e h
    rw [runItemsNC] at h
    exact absurd h (by simp)
  | cons item rest ih =>
    intro post i e h
    rw [List.cons_append]
    rw [runItemsNC] at h ⊢
    cases hr : runItemNC cfg env skip i item with
    | error e1 => simp only [hr] at h ⊢; exact h
    | ok u =>
      cases u
      simp only [hr] at h ⊢
      exact ih post (i + 1) e h

/-- C1: for every pipeline run by `Run` or `RunWithCallbacks`, a failure at
item `k` ends the run immediately: the events and the error of the whole
run equal those of the run of the first `k + 1` items alone, so no later
item is executed and no callback (`OnStepStart`, `OnPRWaitStart`, or any
other) is emitted for an item after `k`; moreover every emitted event's
item index lies in range and the event stream is monotone in the item
index — item `i + 1` is never begun before item `i` is terminal. -/
theorem run_sequential_failfast :
    (∀ (cfg : Config) (env : EngineEnv) (skip : Bool) (i : Nat)
        (pre post : List WorkflowItem) (evs : List Event) (e : String),
      runItemsWC cfg env skip i pre = (evs, .error e) →
      runItemsWC cfg env skip i (pre ++ post) = (evs, .error e)) ∧
    (∀ (cfg : Config) (env : EngineEnv) (skip : Bool) (i : Nat)
        (pre post : List WorkflowItem) (e : String),
      runItemsNC cfg env skip i pre = .error e →
      runItemsNC cfg env skip i (pre ++ post) = .error e) ∧
    (∀ (cfg : Config) (env : EngineEnv) (skip : Bool) (i : Nat)
        (items : List WorkflowItem),
      ∀ ev ∈ (runItemsWC cfg env skip i items).1,
        i ≤ ev.item ∧ ev.item < i + items.length) ∧
    (∀ (cfg : Config) (env : EngineEnv) (skip : Bool) (i : Nat)
        (items : List WorkflowItem),
      ((runItemsWC cfg env skip i items).1).Pairwise (fun a b => a.item ≤ b.item)) :=
  ⟨fun cfg env skip i pre post evs e h =>
      runItemsWC_error_prefix cfg env skip pre post i evs e h,
   fun cfg env skip i pre post e h =>
      runItemsNC_error_prefix cfg env skip pre post i e h,
   fun cfg env skip i items =>
      runItemsWC_events_item_bounds cfg env skip items i,
   fun cfg env skip i items =>
      runItemsWC_events_sorted cfg env skip items i⟩

/-- Witness for C1: with item 0's build failing, running `[stepItemA,
stepItemB]` produces exactly the events and error of running `[stepItemA]`
alone — item 1 is never started. -/
theorem run_sequential_failfast_witness :
    runItemsWC cfgW envW false 0 ([stepItemA] ++ [stepItemB]) =
      ([Event.stepStart 0 0 "build" "", Event.stepStart 0 0 "build" "http://jenkins/job/1",
        Event.stepComplete 0 0 "build" "" (some "failed waiting for build: boom")],
       .error "step \"build\" failed: failed waiting for build: boom") :=
  run_sequential_failfast.1 cfgW envW false 0 [stepItemA] [stepItemB]
    [Event.stepStart 0 0 "build" "", Event.stepStart 0 0 "build" "http://jenkins/job/1",
     Event.stepComplete 0 0 "build" "" (some "failed waiting for build: boom")]
    "step \"build\" failed: failed waiting for build: boom" (by rfl)


/-- C3: any remote build result other than the literal `"SUCCESS"` fails
the step and ends the whole run with an error, for single steps (first
conjunct: a non-`"SUCCESS"` result yields the wrapped error, and only
`"SUCCESS"` lets the walk continue with the remaining items) and for
parallel-group members (a member whose build returns `ok r` with
`r ≠ "SUCCESS"` yields a failing task verdict, hence — since the group
succeeds only when every scheduled task's verdict is `ok` — a failing
group and a failing run). -/
theorem run_success_literal_only :
    (∀ (cfg : Config) (env : EngineEnv) (skip : Bool) (i : Nat)
        (item : WorkflowItem) (rest : List WorkflowItem) (r : String),
      item.waitForPR = none → item.parallel = none →
      (runStepModel cfg env item.asStep true i 0).2 = .ok r →
      ((r ≠ "SUCCESS" → (runItemsWC cfg env skip i (item :: rest)).2 =
          .error ("step " ++ quoteName item.asStep.name ++ " failed with result: " ++ r)) ∧
       (r = "SUCCESS" → (runItemsWC cfg env skip i (item :: rest)).2 =
          (runItemsWC cfg env skip (i + 1) rest).2))) ∧
    (∀ (name r : String), stepTaskVerdict name (.ok r) = .ok () ↔ r = "SUCCESS") ∧
    (∀ l : List (Except String Unit),
      errgroupFirst l = .ok () ↔ ∀ x ∈ l, x = .ok ()) ∧
    (∀ (cfg : Config) (env : EngineEnv) (skip : Bool) (i : Nat)
        (item : WorkflowItem) (grp : ParallelGroup) (rest : List WorkflowItem)
        (j : Nat) (r : String),
      item.waitForPR = none → item.parallel = some grp →
      j ∈ env.order i →
      (runStepModel cfg env (grp.steps.getD j default) true i j).2 = .ok r →
      r ≠ "SUCCESS" →
      ∃ e, (runItemsWC cfg env skip i (item :: rest)).2 = .error e) := by
  have hall : ∀ l : List (Except String Unit),
      errgroupFirst l = .ok () ↔ ∀ x ∈ l, x = .ok () := by
    intro l
    induction l with
    | nil => simp [errgroupFirst]
    | cons x t ih =>
      cases x with
      | ok u => cases u; simp [errgroupFirst, ih]
      | error e => simp [errgroupFirst]
  refine ⟨?_, ?_, hall, ?_⟩
  · intro cfg env skip i item rest r hpr hpar hstep
    constructor
    · intro hr
      rw [runItemsWC]
      have hitem : (runItemWC cfg env skip i item).2 =
          .error ("step " ++ quoteName item.asStep.name ++ " failed with result: " ++ r) := by
        simp only [runItemWC, hpr, hpar, hstep]
        rw [if_pos hr]
      simp only [hitem]
    · intro hr
      rw [runItemsWC]
      have hitem : (runItemWC cfg env skip i item).2 = .ok () := by
        simp only [runItemWC, hpr, hpar, hstep]
        rw [if_neg (by simp [hr])]
      simp only [hitem]
  · intro name r
    unfold stepTaskVerdict
    by_cases hr : r = "SUCCESS"
    · simp [hr]
    · simp [hr]
  · intro cfg env skip i item grp rest j r hpr hpar hj hstep hr
    have hverdict : (parallelTask cfg env i grp.steps j).2 =
        .error ("step " ++ quoteName (grp.steps.getD j default).name ++
          " failed with result: " ++ r) := by
      simp only [parallelTask, hstep, stepTaskVerdict]
      rw [if_pos hr]
    have hgroup : ∃ e2,
        (runParallelGroupWithCallbacksModel cfg env i grp.steps).2 = .error e2 := by
      cases hg : (runParallelGroupWithCallbacksModel cfg env i grp.steps).2 with
      | error e2 => exact ⟨e2, rfl⟩
      | ok u =>
        cases u
        exfalso
        have h2 : errgroupFirst
            (((env.order i).map (parallelTask cfg env i grp.steps)).map Prod.snd) =
            .ok () := hg
        have hmem : (parallelTask cfg env i grp.steps j).2 ∈
            ((env.order i).map (parallelTask cfg env i grp.steps)).map Prod.snd := by
          exact List.mem_map_of_mem _ (List.mem_map_of_mem _ hj)
        have := (hall _).mp h2 _ hmem
        rw [hverdict] at this
        exact absurd this (by simp)
    obtain ⟨e2, hg⟩ := hgroup
    have hitem : ∃ e3, (runItemWC cfg env skip i item).2 = .error e3 := by
      simp only [runItemWC, hpr, hpar, hg]
      exact ⟨_, rfl⟩
    obtain ⟨e3, hi⟩ := hitem
    rw [runItemsWC]
    simp only [hi]
    exact ⟨e3, rfl⟩

/-- Witness for C3: an `"UNSTABLE"` build result fails a single-step run
with the wrapped error, and fails a run whose first item is a one-step
parallel group. -/
theorem run_success_literal_only_witness :
    (runItemsWC cfgW envU false 0 [stepItemA]).2 =
      .error "step \"build\" failed with result: UNSTABLE" ∧
    ∃ e, (runItemsWC cfgW envU false 0 [parItemW]).2 = .error e := by
  constructor
  · exact ((run_success_literal_only.1 cfgW envU false 0 stepItemA [] "UNSTABLE"
      rfl rfl rfl).1 (by decide))
  · exact run_success_literal_only.2.2.2 cfgW envU false 0 parItemW
      ⟨"par", [⟨"pstep", "ci", "job3", []⟩]⟩ [] 0 "UNSTABLE" rfl rfl (by decide) rfl
      (by decide)


/-- Helper: errgroup skips tasks that succeeded. -/
theorem errgroupFirst_append_ok (l1 l2 : List (Except String Unit))
    (h : ∀ x ∈ l1, x = .ok ()) :
    errgroupFirst (l1 ++ l2) = errgroupFirst l2 := by
  induction l1 with
  | nil => rfl
  | cons x t ih =>
    have hx := h x (List.mem_cons_self x t)
    subst hx
    rw [List.cons_append]
    exact ih fun y hy => h y (List.mem_cons_of_mem _ hy)

/-- Helper: the cancellation point of errgroup is the completion-order
position of the first failing task. -/
theorem firstErrPos_append_ok (l1 l2 : List (Except String Unit)) (e : String)
    (h : ∀ x ∈ l1, x = .ok ()) :
    firstErrPos (l1 ++ .error e :: l2) = some l1.length := by
  induction l1 with
  | nil => rfl
  | cons x t ih =>
    have hx := h x (List.mem_cons_self x t)
    subst hx
    rw [List.cons_append]
    show (firstErrPos (t ++ .error e :: l2)).map (· + 1) = some (t.length + 1)
    rw [ih fun y hy => h y (List.mem_cons_of_mem _ hy)]
    rfl

/-- Helper: a polling loop that sees only still-building responses until
the context is cancelled returns the cancellation error at the first tick
at which the cancellation is visible. -/
theorem waitForBuild_cancelled_aux :
    ∀ (k t : Nat) (polls : List BuildPoll),
      (∀ p ∈ polls.take k, ∃ rr, p = BuildPoll.body true rr) →
      k < polls.length →
      waitForBuild (some (t + k)) t polls = some (.error "context canceled") := by
  intro k
  induction k with
  | zero =>
    intro t polls _ hlen
    cases polls with
    | nil => simp at hlen
    | cons p rest =>
      simp only [waitForBuild]
      rw [if_pos (by simp [cancelledAt])]
  | succ k ih =>
    intro t polls htake hlen
    cases polls with
    | nil => simp at hlen
    | cons p rest =>
      obtain ⟨rr, hp⟩ := htake p (by simp [List.take_succ_cons])
      subst hp
      simp only [waitForBuild]
      rw [if_neg (by simp only [cancelledAt, decide_eq_true_eq]; omega)]
      have : t + (k + 1) = (t + 1) + k := by omega
      rw [this]
      have hres := ih (t + 1) rest
        (fun q hq => htake q (by simp [List.take_succ_cons, hq]))
        (by simpa using Nat.lt_of_succ_lt_succ hlen)
      simpa using hres

/-- C2: in a parallel group, (i) if the first failing task in completion
order is task `j`, the group's error is exactly task `j`'s error,
regardless of what the tasks completing after it return; (ii) a `runStep`
error surfaces as that step's error wrapped with the step's name; (iii)
errgroup cancels the context shared by all sibling tasks exactly at the
first failure's position in completion order; (iv) a sibling's polling
loop checks cancellation at every iteration, so once the shared context is
cancelled at tick `n` the poll returns the cancellation error at tick `n`,
after consuming exactly the `n` still-building responses before it. -/
theorem parallel_failfast :
    (∀ (cfg : Config) (env : EngineEnv) (i : Nat) (steps : List Step)
        (pre post : List Nat) (j : Nat) (e : String),
      env.order i = pre ++ j :: post →
      (∀ k ∈ pre, (parallelTask cfg env i steps k).2 = .ok ()) →
      (parallelTask cfg env i steps j).2 = .error e →
      (runParallelGroupWithCallbacksModel cfg env i steps).2 = .error e) ∧
    (∀ (cfg : Config) (env : EngineEnv) (i : Nat) (steps : List Step)
        (j : Nat) (msg : String),
      (runStepModel cfg env (steps.getD j default) true i j).2 = .error msg →
      (parallelTask cfg env i steps j).2 =
        .error ("step " ++ quoteName (steps.getD j default).name ++ ": " ++ msg)) ∧
    (∀ (cfg : Config) (env : EngineEnv) (i : Nat) (steps : List Step)
        (pre post : List Nat) (j : Nat) (e : String),
      env.order i = pre ++ j :: post →
      (∀ k ∈ pre, (parallelTask cfg env i steps k).2 = .ok ()) →
      (parallelTask cfg env i steps j).2 = .error e →
      firstErrPos (((env.order i).map (parallelTask cfg env i steps)).map Prod.snd) =
        some pre.length) ∧
    (∀ (n : Nat) (polls : List BuildPoll),
      (∀ p ∈ polls.take n, ∃ rr, p = BuildPoll.body true rr) →
      n < polls.length →
      waitForBuild (some n) 0 polls = some (.error "context canceled")) := by
  refine ⟨?_, ?_, ?_, ?_⟩
  · intro cfg env i steps pre post j e horder hpre hj
    show errgroupFirst (((env.order i).map (parallelTask cfg env i steps)).map Prod.snd) =
      .error e
    rw [horder, List.map_append, List.map_cons, List.map_append, List.map_cons]
    rw [errgroupFirst_append_ok]
    · rw [hj]
      rfl
    · intro x hx
      rw [List.mem_map] at hx
      obtain ⟨y, hy, hx⟩ := hx
      rw [List.mem_map] at hy
      obtain ⟨k, hk, hy⟩ := hy
      subst hy hx
      exact hpre k hk
  · intro cfg env i steps j msg h
    simp only [parallelTask, h, stepTaskVerdict]
  · intro cfg env i steps pre post j e horder hpre hj
    rw [horder, List.map_append, List.map_cons, List.map_append, List.map_cons, hj]
    rw [firstErrPos_append_ok]
    · rw [List.length_map, List.length_map]
    · intro x hx
      rw [List.mem_map] at hx
      obtain ⟨y, hy, hx⟩ := hx
      rw [List.mem_map] at hy
      obtain ⟨k, hk, hy⟩ := hy
      subst hy hx
      exact hpre k hk
  · intro n polls htake hlen
    have := waitForBuild_cancelled_aux n 0 polls htake hlen
    simpa using this

/-- Witness for C2: with completion order `[1, 0]` and task 1 failing
first, the two-step group's error is exactly task 1's wrapped error even
though task 0 also fails (`"FAILURE"` result); the cancellation point is
position 0; and a build poll cancelled at tick 2 returns the cancellation
error against a trace of still-building responses. -/
theorem parallel_failfast_witness :
    (runParallelGroupWithCallbacksModel cfgW envP 0 parSteps).2 =
      .error "step \"s1\": failed waiting for build: boom" ∧
    firstErrPos (((envP.order 0).map (parallelTask cfgW envP 0 parSteps)).map Prod.snd) =
      some 0 ∧
    waitForBuild (some 2) 0
      [BuildPoll.body true "", BuildPoll.body true "", BuildPoll.body true ""] =
      some (.error "context canceled") := by
  refine ⟨?_, ?_, ?_⟩
  · exact parallel_failfast.1 cfgW envP 0 parSteps [] [0] 1
      "step \"s1\": failed waiting for build: boom" rfl
      (by intro k hk; simp at hk) rfl
  · exact parallel_failfast.2.2.1 cfgW envP 0 parSteps [] [0] 1
      "step \"s1\": failed waiting for build: boom" rfl
      (by intro k hk; simp at hk) rfl
  · exact parallel_failfast.2.2.2 2
      [BuildPoll.body true "", BuildPoll.body true "", BuildPoll.body true ""]
      (by
        intro p hp
        simp [List.take_succ_cons] at hp
        exact ⟨"", hp⟩)
      (by decide)


end JenkinsFlow
